import Mathlib

/-!
Verification of the dynamic schema-driven record/list editor
(`packages/ui/src/custom-components/dynamic-Inputs.tsx`): the `ObjectInput`
and `ArrayInput` controllers and their field-type dispatch.

JavaScript runtime values stored in records are embedded as the inductive
`Value`; a record (`Record<string, any>`) is a total function from keys to
`Value`, where absent keys map to `Value.undef`.  Stateful React pieces are
embedded as pure state-transition functions: each handler returns the new
local buffer together with an `Option` holding the value emitted through the
`onChange` callback (`none` when the handler never calls `onChange`).
-/

namespace DynamicInputs

/-- A JavaScript value as stored in an edited record: `undefined`, `null`,
a string, a number, a boolean, or an array (tag arrays hold strings). -/
inductive Value where
  | undef : Value
  | null : Value
  | str : String → Value
  | num : Int → Value
  | bool : Bool → Value
  | arr : List String → Value
deriving DecidableEq, Repr

/-- A record being edited: a total map from string keys to values; keys the
object does not own map to `Value.undef`. -/
abbrev RecordT := String → Value

/-- The `type` union of `FieldConfig`:
`'text' | 'number' | 'select' | 'time' | 'boolean' | 'textarea' | 'tags'`. -/
inductive FieldType where
  | text : FieldType
  | number : FieldType
  | select : FieldType
  | time : FieldType
  | boolean : FieldType
  | textarea : FieldType
  | tags : FieldType
deriving DecidableEq, Repr

/-- JavaScript truthiness of a stored value (used by `!!internalState[field.name]`
and by `internalState[field.name] || ''`). -/
def truthy : Value → Bool
  | Value.undef => false
  | Value.null => false
  | Value.str s => decide (s ≠ "")
  | Value.num n => decide (n ≠ 0)
  | Value.bool b => b
  | Value.arr _ => true

/-- `internalState[field.name] ?? ''`: nullish coalescing to the empty string. -/
def nullishToEmpty (v : Value) : Value :=
  match v with
  | Value.undef => Value.str ""
  | Value.null => Value.str ""
  | v => v

/-- `internalState[field.name] || ''`: the value itself when truthy, else `''`. -/
def orEmpty (v : Value) : Value :=
  if truthy v then v else Value.str ""

/-- The defensive read of a tag array:
`Array.isArray(internalState[field.name]) ? internalState[field.name] : []`. -/
def tagsOfValue : Value → List String
  | Value.arr l => l
  | _ => []

/-- The outcome of rendering one field: either nothing (hidden / missing
options), or one of the concrete widgets carrying the data it displays. -/
inductive Rendered where
  | nothing : Rendered
  | select : List (String × String) → Value → Rendered
  | switchR : Bool → Rendered
  | textareaR : Value → Rendered
  | tagsR : List String → Rendered
  | inputR : Value → Rendered
deriving DecidableEq, Repr

/-- One schema entry (`FieldConfig`): key name, type tag, optional options
list for `select`, optional visibility predicate, and the optional render
override inherited from `EnhancedInputProps`. -/
structure FieldConfig where
  name : String
  type : FieldType
  options : Option (List (String × String))
  visible : Option (RecordT → Bool)
  render : Option (Value → (Value → RecordT) → Rendered)

/-- The shallow merge `{ ...internalState, [key]: fieldValue }`. -/
def updateRecord (r : RecordT) (key : String) (v : Value) : RecordT :=
  fun j => if j = key then v else r j

/-- `ObjectInput.updateField`: merges the single field into the buffer and
immediately emits the merged record through `onChange`. -/
def objectUpdateField (internalState : RecordT) (key : String) (v : Value) :
    RecordT × Option RecordT :=
  (updateRecord internalState key v, some (updateRecord internalState key v))

/-- `ObjectInput`'s `useEffect(() => setInternalState(value), [value])`:
replaces the buffer with the external record and emits nothing. -/
def objectSync (_internalState : RecordT) (value : RecordT) :
    RecordT × Option RecordT :=
  (value, none)

/-- Modelled from the spec: `EnhancedInput`
(`custom-components/enhanced-input`, whose source is not in the sources
given) accepts an optional render override that receives the current value
and its change callback and fully replaces the generic single-value input. -/
def enhancedInput (render : Option (Value → (Value → RecordT) → Rendered))
    (v : Value) (onValueChange : Value → RecordT) : Rendered :=
  match render with
  | some r => r v onValueChange
  | none => Rendered.inputR v

/-- Whether a field passes its visibility gate:
`field.visible && !field.visible(internalState)` returns null. -/
def visibleCheck (f : FieldConfig) (internalState : RecordT) : Bool :=
  match f.visible with
  | some p => p internalState
  | none => true

/-- `ObjectInput.renderField`: the per-type dispatch.  The `select` branch is
`field.options && (<Combobox .../>)` — it yields nothing only when `options`
is absent (in JavaScript an empty array is truthy).  The default branch
delegates to `EnhancedInput` with the nullish-coalesced value and the
`updateField` callback. -/
def renderField (f : FieldConfig) (internalState : RecordT) : Rendered :=
  if !visibleCheck f internalState then Rendered.nothing
  else
    match f.type with
    | FieldType.select =>
      match f.options with
      | some opts => Rendered.select opts (internalState f.name)
      | none => Rendered.nothing
    | FieldType.boolean => Rendered.switchR (truthy (internalState f.name))
    | FieldType.textarea => Rendered.textareaR (orEmpty (internalState f.name))
    | FieldType.tags => Rendered.tagsR (tagsOfValue (internalState f.name))
    | _ => enhancedInput f.render (nullishToEmpty (internalState f.name))
        (fun v => updateRecord internalState f.name v)

/-- JavaScript `String.prototype.trim`: strip leading and trailing
whitespace, embedded over the string's character list. -/
def trimString (s : String) : String :=
  String.mk (((s.data.dropWhile Char.isWhitespace).reverse.dropWhile
    Char.isWhitespace).reverse)

/-- The tag-entry confirm handler (`handleKeyDown` on Enter): trims the raw
input; appends it and clears the box (second component `true`) iff the
trimmed string is non-empty and not already present. -/
def addTag (tags : List String) (input : String) : List String × Bool :=
  if trimString input ≠ "" ∧ trimString input ∉ tags then
    (tags ++ [trimString input], true)
  else (tags, false)

/-- `removeTag`: `tags.filter(t => t !== tagToRemove)`. -/
def removeTag (tags : List String) (tagToRemove : String) : List String :=
  tags.filter (fun t => t != tagToRemove)

/-- The per-type empty value a default row gives each field:
`field.type === 'tags' ? [] : (field.type === 'boolean' ? false : '')`. -/
def defaultValue (t : FieldType) : Value :=
  if t = FieldType.tags then Value.arr []
  else if t = FieldType.boolean then Value.bool false
  else Value.str ""

/-- `initializeDefaultItem`: `fields.reduce((acc, field) => { acc[field.name]
= ...; return acc }, {})`, where the seed `{}` maps every key to `undefined`;
a later duplicate field name overwrites an earlier one, as in the mutation. -/
def initializeDefaultItem (fields : List FieldConfig) : RecordT :=
  fields.foldl (fun acc field => updateRecord acc field.name (defaultValue field.type))
    (fun _ => Value.undef)

/-- The `useState` initializer of `displayItems`:
`value && value.length > 0 ? value : [initializeDefaultItem()]`. -/
def seedDisplayItems (fields : List FieldConfig) (value : List RecordT) : List RecordT :=
  if value.length > 0 then value else [initializeDefaultItem fields]

/-- One field of an item counts as set when its value is a non-empty array,
or is neither `undefined`, `null`, nor `''` (the body of the `some`
callback inside `isItemModified`). -/
def isSetValue : Value → Bool
  | Value.arr l => decide (l.length > 0)
  | Value.undef => false
  | Value.null => false
  | Value.str s => decide (s ≠ "")
  | Value.num _ => true
  | Value.bool _ => true

/-- `isItemModified`: `fields.some(field => ...)` over the stored values. -/
def isItemModified (fields : List FieldConfig) (item : RecordT) : Bool :=
  fields.any (fun field => isSetValue (item field.name))

/-- `handleItemChange`: writes the updated item at the given index of a copy
of the buffer, stores it, and emits the buffer filtered by `isItemModified`. -/
def handleItemChange (fields : List FieldConfig) (displayItems : List RecordT)
    (index : Nat) (updatedItem : RecordT) : List RecordT × Option (List RecordT) :=
  (displayItems.set index updatedItem,
   some ((displayItems.set index updatedItem).filter (isItemModified fields)))

/-- `createField`: prepends a default row when `isReverse`, else appends;
never calls `onChange`. -/
def createField (fields : List FieldConfig) (isReverse : Bool)
    (displayItems : List RecordT) : List RecordT × Option (List RecordT) :=
  (if isReverse then initializeDefaultItem fields :: displayItems
   else displayItems ++ [initializeDefaultItem fields], none)

/-- The filter step of `deleteField`:
`displayItems.filter((_, i) => i !== index)`. -/
def removeAtIndex (displayItems : List RecordT) (index : Nat) : List RecordT :=
  (displayItems.enum.filter (fun p => p.1 != index)).map Prod.snd

/-- The fallback of `deleteField`:
`newDisplayItems.length > 0 ? newDisplayItems : [initializeDefaultItem()]`. -/
def deleteFinalItems (fields : List FieldConfig) (displayItems : List RecordT)
    (index : Nat) : List RecordT :=
  if (removeAtIndex displayItems index).length > 0 then removeAtIndex displayItems index
  else [initializeDefaultItem fields]

/-- `deleteField`: stores the post-deletion buffer (with the default-row
fallback) and emits it filtered by `isItemModified`. -/
def deleteField (fields : List FieldConfig) (displayItems : List RecordT)
    (index : Nat) : List RecordT × Option (List RecordT) :=
  (deleteFinalItems fields displayItems index,
   some ((deleteFinalItems fields displayItems index).filter (isItemModified fields)))

/-- `ArrayInput`'s `useEffect`: `if (value && value.length > 0)
setDisplayItems(value)` — a non-empty external collection replaces the
buffer, an empty one is ignored; nothing is emitted either way. -/
def arraySync (displayItems : List RecordT) (value : List RecordT) :
    List RecordT × Option (List RecordT) :=
  (if value.length > 0 then value else displayItems, none)

/-- The mount-time seeding of `displayItems` as a transition: the `useState`
initializer computes the seed and never calls `onChange`. -/
def arraySeed (fields : List FieldConfig) (value : List RecordT) :
    List RecordT × Option (List RecordT) :=
  (seedDisplayItems fields value, none)

/-- A sample text field used to evaluate the theorems on concrete inputs. -/
def sampleTextField : FieldConfig := ⟨"a", FieldType.text, none, none, none⟩

/-- A sample boolean field. -/
def sampleBoolField : FieldConfig := ⟨"b", FieldType.boolean, none, none, none⟩

/-- A sample tag-set field. -/
def sampleTagsField : FieldConfig := ⟨"c", FieldType.tags, none, none, none⟩

/-- A sample one-field schema. -/
def sampleFields : List FieldConfig := [sampleTextField]

/-- A sample record owning no keys. -/
def sampleRecord : RecordT := fun _ => Value.undef

/-- A sample record holding the string "x" at every key. -/
def sampleRecordX : RecordT := fun _ => Value.str "x"

/-- A select field whose options list is present but empty. -/
def sampleSelectFieldEmpty : FieldConfig := ⟨"k", FieldType.select, some [], none, none⟩

/-- A select field with one option. -/
def sampleSelectField : FieldConfig :=
  ⟨"k", FieldType.select, some [("L", "v")], none, none⟩

/-- A select field whose options are absent. -/
def sampleSelectFieldNoOpts : FieldConfig := ⟨"k", FieldType.select, none, none, none⟩

/-- A sample render override that ignores its arguments. -/
def sampleRenderOverride : Value → (Value → RecordT) → Rendered :=
  fun _ _ => Rendered.inputR (Value.str "X")

/-- A tags-typed field that also carries a render override. -/
def sampleTagsWithRender : FieldConfig :=
  ⟨"x", FieldType.tags, none, none, some sampleRenderOverride⟩

/-- A text-typed field carrying a render override. -/
def sampleTextWithRender : FieldConfig :=
  ⟨"x", FieldType.text, none, none, some sampleRenderOverride⟩

/- ### Helper lemmas -/

/-- Folding the default-item writes over fields none of which is named `k`
leaves the value at `k` untouched. -/
theorem foldl_update_not_mem (fields : List FieldConfig) (base : RecordT) (k : String)
    (h : ∀ f ∈ fields, f.name ≠ k) :
    fields.foldl (fun acc field => updateRecord acc field.name (defaultValue field.type))
      base k = base k := by
  induction fields generalizing base with
  | nil => rfl
  | cons g gs ih =>
    have hg : g.name ≠ k := h g (List.mem_cons_self g gs)
    rw [List.foldl_cons, ih _ (fun f hf => h f (List.mem_cons_of_mem g hf))]
    simp only [updateRecord]
    rw [if_neg (fun hk => hg hk.symm)]

/-- With pairwise-distinct field names, the default item holds each field's
per-type empty value. -/
theorem foldl_update_lookup (fields : List FieldConfig) (f : FieldConfig)
    (hnd : (fields.map FieldConfig.name).Nodup) (hf : f ∈ fields) (base : RecordT) :
    fields.foldl (fun acc field => updateRecord acc field.name (defaultValue field.type))
      base f.name = defaultValue f.type := by
  induction fields generalizing base with
  | nil => cases hf
  | cons g gs ih =>
    rw [List.map_cons, List.nodup_cons] at hnd
    rcases List.mem_cons.mp hf with h1 | h2
    · subst h1
      rw [List.foldl_cons, foldl_update_not_mem gs _ f.name ?_]
      · simp [updateRecord]
      · intro f2 hf2 he
        exact hnd.1 (he ▸ List.mem_map_of_mem FieldConfig.name hf2)
    · exact ih hnd.2 h2 _

/-- Lookup of a schema field in the freshly synthesized default row. -/
theorem initializeDefaultItem_lookup (fields : List FieldConfig) (f : FieldConfig)
    (hnd : (fields.map FieldConfig.name).Nodup) (hf : f ∈ fields) :
    initializeDefaultItem fields f.name = defaultValue f.type :=
  foldl_update_lookup fields f hnd hf _

/-- The per-type empty value is "set" exactly for booleans (`false` is
neither `undefined`, `null`, nor `''`). -/
theorem isSetValue_defaultValue (t : FieldType) :
    isSetValue (defaultValue t) = decide (t = FieldType.boolean) := by
  cases t <;> rfl

/-- `List.any` only depends on the predicate's values on the list. -/
theorem any_congr_of_mem {α : Type} (l : List α) (p q : α → Bool)
    (h : ∀ a ∈ l, p a = q a) : l.any p = l.any q := by
  induction l with
  | nil => rfl
  | cons x xs ih =>
    simp only [List.any_cons]
    rw [h x (List.mem_cons_self x xs), ih (fun a ha => h a (List.mem_cons_of_mem x ha))]

/- ### Claim theorems -/

/-- C5: an ObjectInput field edit `updateField(key, v)` produces a buffer
whose value at `key` is `v` and whose value at every other key — visible or
hidden, covered by the schema or not — is unchanged, and `onChange` is
immediately invoked with exactly that full merged record. -/
theorem updateField_frame (s : RecordT) (k : String) (v : Value) :
    (objectUpdateField s k v).1 k = v
  ∧ (∀ j, j ≠ k → (objectUpdateField s k v).1 j = s j)
  ∧ (objectUpdateField s k v).2 = some ((objectUpdateField s k v).1) := by
  refine ⟨?_, ?_, rfl⟩
  · simp [objectUpdateField, updateRecord]
  · intro j hj
    simp [objectUpdateField, updateRecord, hj]

/-- Witness for C5 at a concrete record, key and value. -/
theorem updateField_frame_witness :
    (objectUpdateField sampleRecord "a" (Value.str "x")).1 "a" = Value.str "x"
  ∧ (objectUpdateField sampleRecord "a" (Value.str "x")).1 "b" = sampleRecord "b" := by
  have h := updateField_frame sampleRecord "a" (Value.str "x")
  exact ⟨h.1, h.2.1 "b" (by decide)⟩

/-- C3: replacing ArrayInput's external collection with a non-empty list
replaces the whole local buffer with that list, while replacing it with an
empty list leaves the buffer (draft rows included) unchanged and emits
nothing. -/
theorem externalReplacement_buffer (buf : List RecordT) (r : RecordT)
    (v : List RecordT) :
    (arraySync buf (r :: v)).1 = r :: v
  ∧ (arraySync buf []).1 = buf
  ∧ (arraySync buf []).2 = none :=
  ⟨by simp [arraySync], rfl, rfl⟩

/-- C10: refreshing a local buffer from an externally supplied value —
ObjectInput's resync, ArrayInput's resync and its initial seeding — and row
insertion never invoke `onChange`; an emission happens exactly in a field
edit or a row deletion, carrying the full post-merge state. -/
theorem resync_never_emits (s value : RecordT) (k : String) (v : Value)
    (fields : List FieldConfig) (buf coll : List RecordT) (i : Nat) (r : RecordT) :
    (objectSync s value).2 = none
  ∧ (arraySeed fields coll).2 = none
  ∧ (arraySync buf coll).2 = none
  ∧ (createField fields false buf).2 = none
  ∧ (createField fields true buf).2 = none
  ∧ (objectUpdateField s k v).2 = some (updateRecord s k v)
  ∧ (handleItemChange fields buf i r).2
      = some (((handleItemChange fields buf i r).1).filter (isItemModified fields))
  ∧ (deleteField fields buf i).2
      = some (((deleteField fields buf i).1).filter (isItemModified fields)) :=
  ⟨rfl, rfl, rfl, rfl, rfl, rfl, rfl, rfl⟩

/-- C6: confirming tag-entry text `s` appends `trim(s)` and clears the box
iff `trim(s)` is non-empty and not already present, else the array is
unchanged; resubmitting the same string is a no-op. -/
theorem addTag_spec (tags : List String) (s : String) :
    (trimString s ≠ "" ∧ trimString s ∉ tags →
      addTag tags s = (tags ++ [trimString s], true))
  ∧ (trimString s = "" ∨ trimString s ∈ tags → addTag tags s = (tags, false))
  ∧ (addTag (addTag tags s).1 s).1 = (addTag tags s).1 := by
  refine ⟨fun h => ?_, fun h => ?_, ?_⟩
  · simp only [addTag]
    rw [if_pos h]
  · simp only [addTag]
    rw [if_neg]
    rcases h with h | h
    · exact fun hc => hc.1 h
    · exact fun hc => hc.2 h
  · by_cases hc : trimString s ≠ "" ∧ trimString s ∉ tags
    · simp only [addTag, if_pos hc]
      rw [if_neg]
      intro h2
      exact h2.2 (List.mem_append_right tags (List.mem_singleton.mpr rfl))
    · simp only [addTag, if_neg hc]

/-- Witness for C6: a fresh tag is appended trimmed; whitespace-only and
duplicate submissions are no-ops. -/
theorem addTag_witness :
    addTag ["a"] " b " = (["a"] ++ [trimString " b "], true)
  ∧ addTag ["a"] "   " = (["a"], false)
  ∧ addTag ["a"] "a" = (["a"], false) := by
  refine ⟨(addTag_spec ["a"] " b ").1 ⟨?_, ?_⟩,
          (addTag_spec ["a"] "   ").2.1 (Or.inl ?_),
          (addTag_spec ["a"] "a").2.1 (Or.inr ?_)⟩
  · decide
  · decide
  · decide
  · decide

/-- C7: removing tag `t` from a duplicate-free tag array deletes exactly the
first occurrence of `t` (the filter agrees with `List.erase`), preserving
the order of the remaining tags; and a non-array stored value is read as the
empty tag array. -/
theorem removeTag_spec (tags : List String) (t : String) (h : tags.Nodup) :
    removeTag tags t = tags.erase t
  ∧ (∀ v : Value, (∀ l, v ≠ Value.arr l) → tagsOfValue v = []) := by
  constructor
  · exact (List.Nodup.erase_eq_filter h t).symm
  · intro v hv
    match v with
    | Value.undef => rfl
    | Value.null => rfl
    | Value.str s => rfl
    | Value.num n => rfl
    | Value.bool b => rfl
    | Value.arr l => exact absurd rfl (hv l)

/-- Witness for C7 on a concrete duplicate-free tag array and a non-array
stored value. -/
theorem removeTag_witness :
    removeTag ["a", "b"] "a" = ["b"] ∧ tagsOfValue Value.null = [] := by
  have h := removeTag_spec ["a", "b"] "a" (by decide)
  exact ⟨h.1.trans (by decide), h.2 Value.null (fun l hl => Value.noConfusion hl)⟩

/-- C1: a row update at a valid index replaces exactly the buffer entry at
that index, every other index keeps its previous entry, and the emitted
collection is the updated buffer filtered by `isItemModified`, which holds
iff some schema field's value is a non-empty array or is neither
`undefined`, `null` nor `''` (`0` and `false` count as set). -/
theorem handleItemChange_spec (fields : List FieldConfig) (items : List RecordT)
    (i : Nat) (r : RecordT) (h : i < items.length) :
    ((handleItemChange fields items i r).1)[i]? = some r
  ∧ (∀ j : Nat, j ≠ i → ((handleItemChange fields items i r).1)[j]? = items[j]?)
  ∧ (handleItemChange fields items i r).2
      = some (((handleItemChange fields items i r).1).filter (isItemModified fields))
  ∧ (∀ item : RecordT,
       isItemModified fields item = true ↔ ∃ f ∈ fields, isSetValue (item f.name) = true)
  ∧ (∀ v : Value, isSetValue v = true ↔
      ((∃ l, v = Value.arr l ∧ l ≠ []) ∨
       ((∀ l, v ≠ Value.arr l) ∧ v ≠ Value.undef ∧ v ≠ Value.null ∧ v ≠ Value.str ""))) := by
  refine ⟨?_, ?_, rfl, ?_, ?_⟩
  · show (items.set i r)[i]? = some r
    exact List.getElem?_set_self h
  · intro j hj
    show (items.set i r)[j]? = items[j]?
    exact List.getElem?_set_ne (fun he => hj he.symm)
  · intro item
    simp [isItemModified, List.any_eq_true]
  · intro v
    match v with
    | Value.arr l =>
      simp only [isSetValue, decide_eq_true_eq]
      constructor
      · intro hl
        exact Or.inl ⟨l, rfl, List.ne_nil_of_length_pos hl⟩
      · rintro (⟨l2, he, hne⟩ | ⟨hno, _⟩)
        · cases he
          exact List.length_pos_of_ne_nil hne
        · exact absurd rfl (hno l)
    | Value.undef => simp [isSetValue]
    | Value.null => simp [isSetValue]
    | Value.str s => simp [isSetValue]
    | Value.num n => simp [isSetValue]
    | Value.bool b => simp [isSetValue]

/-- Witness for C1 on a one-row buffer. -/
theorem handleItemChange_witness :
    ((handleItemChange sampleFields [sampleRecord] 0 sampleRecordX).1)[0]?
      = some sampleRecordX :=
  (handleItemChange_spec sampleFields [sampleRecord] 0 sampleRecordX (by decide)).1

/-- C4: ArrayInput's rendered row list is never empty — seeding with an
empty external collection yields exactly one default row, every operation
preserves non-emptiness, deleting the sole row resynthesizes a default row,
and the default row assigns each field its per-type empty value
(`[]` for tags, `false` for boolean, `''` otherwise). -/
theorem arrayInput_nonempty_invariant (fields : List FieldConfig)
    (buf v : List RecordT) (i : Nat) (r : RecordT) (rev : Bool)
    (hbuf : buf ≠ []) (hnd : (fields.map FieldConfig.name).Nodup) :
    seedDisplayItems fields [] = [initializeDefaultItem fields]
  ∧ seedDisplayItems fields v ≠ []
  ∧ (handleItemChange fields buf i r).1 ≠ []
  ∧ (createField fields rev buf).1 ≠ []
  ∧ (deleteField fields buf i).1 ≠ []
  ∧ (arraySync buf v).1 ≠ []
  ∧ (deleteField fields [r] 0).1 = [initializeDefaultItem fields]
  ∧ (∀ f ∈ fields, initializeDefaultItem fields f.name = defaultValue f.type) := by
  refine ⟨by simp [seedDisplayItems], ?_, ?_, ?_, ?_, ?_, ?_,
    fun f hf => initializeDefaultItem_lookup fields f hnd hf⟩
  · cases v with
    | nil => simp [seedDisplayItems]
    | cons a t => simp [seedDisplayItems]
  · show buf.set i r ≠ []
    exact List.ne_nil_of_length_pos
      (by rw [List.length_set]; exact List.length_pos_of_ne_nil hbuf)
  · cases rev with
    | false =>
      show buf ++ [initializeDefaultItem fields] ≠ []
      simp
    | true =>
      show initializeDefaultItem fields :: buf ≠ []
      exact List.cons_ne_nil _ _
  · show deleteFinalItems fields buf i ≠ []
    unfold deleteFinalItems
    split
    · next hlen => exact List.ne_nil_of_length_pos hlen
    · exact List.cons_ne_nil _ _
  · cases v with
    | nil => simpa [arraySync] using hbuf
    | cons a t => simp [arraySync]
  · rfl

/-- Witness for C4: the empty-collection seed and the sole-row deletion both
yield exactly one default row on a concrete schema. -/
theorem arrayInput_nonempty_witness :
    seedDisplayItems sampleFields [] = [initializeDefaultItem sampleFields]
  ∧ (deleteField sampleFields [sampleRecord] 0).1 = [initializeDefaultItem sampleFields] := by
  have h := arrayInput_nonempty_invariant sampleFields [sampleRecord] [] 0 sampleRecord
    false (List.cons_ne_nil _ _) (by decide)
  exact ⟨h.1, h.2.2.2.2.2.2.1⟩

/-- C2 counterexample: with a boolean field in the schema, the freshly
synthesized default row (in which that field holds `false`) already counts
as modified — `false` is neither `undefined`, `null` nor `''` — so the
default row is not a draft and is emitted to the caller. -/
theorem default_row_not_draft_counterexample :
    isItemModified [sampleBoolField] (initializeDefaultItem [sampleBoolField]) = true
  ∧ (handleItemChange [sampleBoolField] [initializeDefaultItem [sampleBoolField]] 0
        (initializeDefaultItem [sampleBoolField])).2
      = some [initializeDefaultItem [sampleBoolField]] :=
  ⟨rfl, rfl⟩

/-- C2 amended: a row is a draft — excluded from the emitted collection —
exactly while no schema field's value satisfies the is-set predicate of the
code, under which `false` and `0` count as set; consequently a freshly
synthesized default row is a draft iff the schema (with distinct field
names) contains no boolean-typed field. -/
theorem draft_iff_no_set_field (fields : List FieldConfig)
    (hnd : (fields.map FieldConfig.name).Nodup) :
    (∀ item : RecordT, isItemModified fields item = false ↔
       ∀ f ∈ fields, isSetValue (item f.name) = false)
  ∧ (isItemModified fields (initializeDefaultItem fields)
       = fields.any (fun f => decide (f.type = FieldType.boolean))) := by
  constructor
  · intro item
    simp [isItemModified, List.any_eq_false]
  · rw [isItemModified]
    apply any_congr_of_mem
    intro f hf
    rw [initializeDefaultItem_lookup fields f hnd hf, isSetValue_defaultValue]

/-- Witness for C2 (amended) on a text-only schema: the default row is a
draft there. -/
theorem draft_iff_witness :
    isItemModified [sampleTextField] (initializeDefaultItem [sampleTextField])
      = [sampleTextField].any (fun f => decide (f.type = FieldType.boolean)) :=
  (draft_iff_no_set_field [sampleTextField] (by decide)).2

/-- C8 counterexample: a select field whose options list is present but
empty still renders the selector (in JavaScript an empty array is truthy),
contradicting "nothing is rendered when options is an empty sequence". -/
theorem select_empty_options_counterexample :
    renderField sampleSelectFieldEmpty sampleRecord ≠ Rendered.nothing := by
  decide

/-- C8 amended: a select field renders nothing iff its options list is
absent; a present options list — even an empty one — renders the selector
with the stored value, and a change through it merges the chosen option
value into the record and emits the merged record. -/
theorem select_renders_iff_options_present (f : FieldConfig)
    (internalState : RecordT) (hty : f.type = FieldType.select)
    (hvis : f.visible = none) :
    (f.options = none → renderField f internalState = Rendered.nothing)
  ∧ (∀ opts, f.options = some opts →
       renderField f internalState = Rendered.select opts (internalState f.name))
  ∧ (∀ v, (objectUpdateField internalState f.name v).2
        = some (updateRecord internalState f.name v)
      ∧ updateRecord internalState f.name v f.name = v) := by
  refine ⟨fun hopt => ?_, fun opts hopt => ?_,
    fun v => ⟨rfl, by simp [updateRecord]⟩⟩
  · simp [renderField, visibleCheck, hvis, hty, hopt]
  · simp [renderField, visibleCheck, hvis, hty, hopt]

/-- Witness for C8 (amended): absent options render nothing; a one-option
list renders the selector. -/
theorem select_render_witness :
    renderField sampleSelectFieldNoOpts sampleRecord = Rendered.nothing
  ∧ renderField sampleSelectField sampleRecord
      = Rendered.select [("L", "v")] (sampleRecord "k") :=
  ⟨(select_renders_iff_options_present sampleSelectFieldNoOpts sampleRecord rfl rfl).1 rfl,
   (select_renders_iff_options_present sampleSelectField sampleRecord rfl rfl).2.1 _ rfl⟩

/-- C9 counterexample: a tags-typed descriptor carrying a render override is
still rendered by the built-in tag-set branch — the override (which would
render a distinguishable widget) is ignored, so the dispatch is not
bypassed for every descriptor carrying an override. -/
theorem customRender_not_bypassed_counterexample :
    renderField sampleTagsWithRender sampleRecord = Rendered.tagsR []
  ∧ Rendered.tagsR [] ≠ sampleRenderOverride (nullishToEmpty (sampleRecord "x"))
      (fun v => updateRecord sampleRecord "x" v) :=
  ⟨rfl, by decide⟩

/-- C9 amended: only for a field whose type takes the generic default branch
(text, number, or time) does a render override replace the built-in input;
there it receives the nullish-coalesced current value and the field's merge
callback and its output is the whole rendering, while explicitly dispatched
types (select, boolean, textarea, tags) keep their built-in semantics. -/
theorem customRender_default_branch (f : FieldConfig) (internalState : RecordT)
    (cr : Value → (Value → RecordT) → Rendered)
    (hvis : f.visible = none) (hr : f.render = some cr)
    (hty : f.type = FieldType.text ∨ f.type = FieldType.number ∨
           f.type = FieldType.time) :
    renderField f internalState
      = cr (nullishToEmpty (internalState f.name))
          (fun v => updateRecord internalState f.name v) := by
  rcases hty with h | h | h <;>
    simp [renderField, visibleCheck, hvis, h, enhancedInput, hr]

/-- Witness for C9 (amended): on a text field the override's output is the
rendering. -/
theorem customRender_witness :
    renderField sampleTextWithRender sampleRecord
      = sampleRenderOverride (nullishToEmpty (sampleRecord "x"))
          (fun v => updateRecord sampleRecord "x" v) :=
  customRender_default_branch sampleTextWithRender sampleRecord
    sampleRenderOverride rfl rfl (Or.inl rfl)

end DynamicInputs
